import Mathlib

/-!
Verification of the Elvin-Cogs repository (pickerwheel, radiobrowser cogs)
against its natural-language specification.

The embedding follows the Python source:
  * `src/pickerwheel/pickerwheel.py` — the wheel-animation renderer
    `_make_wheel_gif`, the image fetch cache `_fetch_image`, and the
    `remove` config command;
  * `src/radiobrowser/radiobrowser.py` — the per-user search cache used by
    `radio search` / `radio pick`.

Python floats are modelled by exact rationals (ℚ); Python exceptions by
`Except`; the per-slice drawing calls are recorded at slice granularity
(angular span, fill kind, rendered label text) in a `SliceRender` record.
-/

namespace ElvinCogs

/-- Generic association-list lookup, modelling Python `dict.get`:
returns the value of the first matching key, `none` if absent. -/
def alookup {α β : Type} [DecidableEq α] (k : α) : List (α × β) → Option β
  | [] => none
  | (a, b) :: t => if a = k then some b else alookup k t

/-- Python float `%` with a positive divisor: `x % y = x - y * floor (x / y)`,
always in `[0, y)` for `y > 0`. -/
def fmod (x y : ℚ) : ℚ := x - y * ⌊x / y⌋

/-- An RGB triple, as produced for the slice fills. -/
abbrev Color := Nat × Nat × Nat

/-- A decoded image (`PIL.Image` after `.convert("RGBA")`), abstracted to the
bytes it was decoded from. -/
structure PILImage where
  data : List Nat
deriving DecidableEq, Repr

/-- How a slice's wedge is filled: the solid-color fallback
(`draw.pieslice(..., fill=col)`) or the fetched background image masked to
the wedge (`im.paste(bg, ..., mask)` followed by the outline arc). -/
inductive Fill where
  | solid (c : Color)
  | image (url : String) (img : PILImage)
deriving DecidableEq, Repr

/-- The drawing commands of one slice in one frame: its angular span
(`start = idx*sector + offset`, `end = start + sector`), its fill, and the
label text actually rendered (after truncation). -/
structure SliceRender where
  startAngle : ℚ
  stopAngle : ℚ
  fill : Fill
  label : String
deriving DecidableEq, Repr

/-- One rendered frame: a `size × size` RGBA canvas (`size = 500` in the
source), its slices in drawing order, and the fixed pointer triangle drawn
last at top-center. -/
structure Frame where
  width : Nat
  height : Nat
  slices : List SliceRender
  pointer : List (Nat × Nat)
deriving DecidableEq, Repr

/-- The encoded animation: the ordered frames and the per-frame display
duration (`duration / frames`). -/
structure Gif where
  frames : List Frame
  frameDuration : ℚ
deriving DecidableEq, Repr

/-- The ways `_make_wheel_gif` can raise: a `ZeroDivisionError` from
`360.0 / 0`, `frame / (frames - 1)` or `duration / frames`, or an exception
propagating out of `self._fetch_image(url)` (aiohttp/PIL failure). -/
inductive RenderError where
  | zeroDivision
  | fetchFailure (url : String)
deriving DecidableEq, Repr

/-- `sector = 360.0 / len(options)` (line 199). -/
def sectorAngle (n : Nat) : ℚ := 360 / n

/-- `mid_deg = (winner_idx + 0.5) * sector` (line 209). -/
def midDeg (n : Nat) (w : Int) : ℚ := ((w : ℚ) + 1/2) * sectorAngle n

/-- `delta = (270 - mid_deg) % 360` (line 210). -/
def rotDelta (n : Nat) (w : Int) : ℚ := fmod (270 - midDeg n w) 360

/-- `final_offset = rotations * 360 + delta` with `rotations = 3`
(lines 208–211). -/
def finalOffset (n : Nat) (w : Int) : ℚ := 3 * 360 + rotDelta n w

/-- The rotation offset applied at frame `f`:
`t = frame / (frames - 1); offset = t * final_offset` (lines 214–215). -/
def frameOffset (n : Nat) (w : Int) (frames f : Nat) : ℚ :=
  ((f : ℚ) / ((frames : ℚ) - 1)) * finalOffset n w

/-- `label = opt if len(opt) <= 12 else opt[:12] + "…"` (line 252). -/
def truncateLabel (opt : String) : String :=
  if opt.length ≤ 12 then opt else opt.take 12 ++ "…"

/-- One HSV→RGB conversion step on rationals (the `colorsys.hsv_to_rgb`
formula), scaled to the 0–255 byte range. -/
def hsvToRgb (h s v : ℚ) : Color :=
  let j : Int := ⌊6 * h⌋
  let f : ℚ := 6 * h - j
  let p : ℚ := v * (1 - s)
  let q : ℚ := v * (1 - s * f)
  let t : ℚ := v * (1 - s * (1 - f))
  let byte : ℚ → Nat := fun x => (⌊255 * x⌋).toNat
  match (j % 6).toNat with
  | 0 => (byte v, byte t, byte p)
  | 1 => (byte q, byte v, byte p)
  | 2 => (byte p, byte v, byte t)
  | 3 => (byte p, byte q, byte v)
  | 4 => (byte t, byte p, byte v)
  | _ => (byte v, byte p, byte q)

/-- Modelled from the spec: `self._get_colors(len(options))` is called at
line 200 but `_get_colors` is absent from the source. The spec (§4.1 step 2)
permits a deterministic evenly-spaced rainbow, hue = index/len, with
saturation/value in a vibrant band (saturation > 0.5, value > 0.6); this
model uses saturation 3/4, value 9/10, yielding one color per slice. -/
def getColors (n : Nat) : List Color :=
  List.map (fun (i : Nat) => hsvToRgb ((i : ℚ) / (n : ℚ)) (3/4) (9/10))
    (List.range n)

/-- `Bool`-valued test that drawing the slice of label `opt` cannot raise:
either the label has no (truthy) URL in the image map, or fetching its URL
succeeds. -/
def fetchOk (imgMap : List (String × String)) (fetch : String → Option PILImage)
    (opt : String) : Bool :=
  match alookup opt imgMap with
  | some url => url == "" || (fetch url).isSome
  | none => true

/-- The drawing of one slice in one frame (loop body, lines 220–271):
`url = img_map.get(opt)`; a truthy URL selects the image branch (fetch,
resize, mask-paste, outline arc) and a missing or empty URL the solid-color
`pieslice`; the label is truncated at 12 characters. A failing fetch
propagates as an exception. -/
def renderSlice (imgMap : List (String × String)) (fetch : String → Option PILImage)
    (sector offset : ℚ) (idx : Nat) (opt : String) (col : Color) :
    Except RenderError SliceRender :=
  let start := idx * sector + offset
  let stop := start + sector
  match alookup opt imgMap with
  | some url =>
    if url = "" then
      .ok ⟨start, stop, .solid col, truncateLabel opt⟩
    else
      match fetch url with
      | some src => .ok ⟨start, stop, .image url src, truncateLabel opt⟩
      | none => .error (.fetchFailure url)
  | none => .ok ⟨start, stop, .solid col, truncateLabel opt⟩

/-- The fixed pointer triangle (lines 274–279): `center = 250`,
`arrow_w = 30`, `arrow_h = 20`. -/
def pointerTriangle : List (Nat × Nat) := [(235, 0), (265, 0), (250, 20)]

/-- One iteration of the frame loop (lines 213–282): `frames = 1` raises
`ZeroDivisionError` at `frame / (frames - 1)`; otherwise the slices of
`enumerate(zip(options, colors))` are drawn in order on a fresh 500×500
canvas and the pointer is drawn last. -/
def renderFrame (options : List String) (imgMap : List (String × String))
    (fetch : String → Option PILImage) (n : Nat) (w : Int) (frames f : Nat) :
    Except RenderError Frame :=
  if frames = 1 then .error .zeroDivision
  else
    match (options.zip (getColors n)).enum.mapM
        (fun p => renderSlice imgMap fetch (sectorAngle n)
          (frameOffset n w frames f) p.1 p.2.1 p.2.2) with
    | .ok slices => .ok ⟨500, 500, slices, pointerTriangle⟩
    | .error e => .error e

/-- `_make_wheel_gif` (lines 187–288). `options = []` raises
`ZeroDivisionError` at `360.0 / 0`; each frame is rendered in order with
exceptions propagating; finally `duration / frames` raises on `frames = 0`,
else the frames are encoded with per-frame duration `duration / frames`.
The per-wheel image map (read from config at lines 204–205) and the
observable behaviour of `self._fetch_image` (one decoded image per URL,
deterministic thanks to the URL-keyed cache) are passed as parameters. -/
def makeWheelGif (options : List String) (frames : Nat) (duration : ℚ)
    (winnerIdx : Int) (imgMap : List (String × String))
    (fetch : String → Option PILImage) : Except RenderError Gif :=
  if options.length = 0 then .error .zeroDivision
  else
    match (List.range frames).mapM
        (renderFrame options imgMap fetch options.length winnerIdx frames) with
    | .ok frameList =>
      if frames = 0 then .error .zeroDivision
      else .ok ⟨frameList, duration / frames⟩
    | .error e => .error e

/-- The value `renderSlice` returns when it does not raise, as a total
function (the fill depends only on the map lookup and the fetched image). -/
def sliceSpec (imgMap : List (String × String)) (fetch : String → Option PILImage)
    (sector offset : ℚ) (idx : Nat) (opt : String) (col : Color) : SliceRender :=
  let start := idx * sector + offset
  ⟨start, start + sector,
    (match alookup opt imgMap with
     | some url =>
       if url = "" then Fill.solid col
       else Fill.image url ((fetch url).getD ⟨[]⟩)
     | none => Fill.solid col),
    truncateLabel opt⟩

/-- The frame `renderFrame` produces when no slice raises. -/
def frameSpec (options : List String) (imgMap : List (String × String))
    (fetch : String → Option PILImage) (n : Nat) (w : Int) (frames f : Nat) :
    Frame :=
  ⟨500, 500,
    (options.zip (getColors n)).enum.map
      (fun p =>
        sliceSpec imgMap fetch (sectorAngle n) (frameOffset n w frames f)
          p.1 p.2.1 p.2.2),
    pointerTriangle⟩

/-- Python `dict` assignment `m[k] = v`: replace the value in place if the
key is present (insertion order kept), else append the new binding at the
end. -/
def dictSet {α β : Type} [DecidableEq α] : List (α × β) → α → β → List (α × β)
  | [], k, v => [(k, v)]
  | (a, b) :: t, k, v => if a = k then (k, v) :: t else (a, b) :: dictSet t k v

/-- Errors out of `_fetch_image`: the HTTP GET or the body read raising, or
`PIL.Image.open` rejecting the bytes. -/
inductive FetchError where
  | networkError
deriving DecidableEq, Repr

/-- `_fetch_image` (lines 169–185), with the owning cog's `_img_cache`
passed and returned explicitly. A cached URL is answered from the cache with
no request; otherwise one request is issued (`net`, `none` = the GET or the
decode raising) and a successfully decoded image is stored under its URL.
The third component counts network requests issued by the call (0 or 1). -/
def fetchImage (cache : List (String × PILImage))
    (net : String → Option (List Nat)) (url : String) :
    Except FetchError PILImage × List (String × PILImage) × Nat :=
  match alookup url cache with
  | some img => (.ok img, cache, 0)
  | none =>
    match net url with
    | some data => (.ok ⟨data⟩, dictSet cache url ⟨data⟩, 1)
    | none => (.error .networkError, cache, 1)

/-- Replies of the `remove` command (lines 100–114). -/
inductive RemoveResult where
  | noWheel
  | invalidIndex
  | removed (item : String)
deriving DecidableEq, Repr

/-- Python `str.lower()`, character by character. -/
def pyLower (s : String) : String := String.mk (s.data.map Char.toLower)

/-- The `remove` command (lines 100–114): lowercase the wheel name, reject a
missing wheel, reject `index < 1 or index > len(opts)` without touching the
stored mapping, else pop the element at `index - 1` and store the updated
wheel. The reply and the resulting stored `wheels` mapping are returned. -/
def removeCmd (wheels : List (String × List String)) (name : String)
    (index : Int) : RemoveResult × List (String × List String) :=
  match alookup (pyLower name) wheels with
  | none => (.noWheel, wheels)
  | some opts =>
    if index < 1 ∨ index > opts.length then (.invalidIndex, wheels)
    else
      (.removed (opts.getD (index - 1).toNat ""),
        dictSet wheels (pyLower name) (opts.eraseIdx (index - 1).toNat))

/-- A radio station record, with the JSON fields `radio_pick` reads
(`none` = key absent from the station dict). -/
structure Station where
  stationName : Option String
  urlResolved : Option String
  url : Option String
  country : Option String
  language : Option String
deriving DecidableEq, Repr

/-- Python `a or b` on an optional string: `a` when present and truthy
(non-empty), else `b`. -/
def orStr (a : Option String) (b : String) : String :=
  match a with
  | some s => if s = "" then b else s
  | none => b

/-- `station.get("url_resolved") or station.get("url") or "No URL available"`
(line 111). -/
def streamUrl (st : Station) : String :=
  orStr st.urlResolved (orStr st.url "No URL available")

/-- Replies of `radio pick` (lines 99–119). -/
inductive PickReply where
  | noRecentSearch
  | outOfRange (len : Nat)
  | picked (st : Station) (stream : String)
deriving DecidableEq, Repr

/-- `radio_pick` (lines 99–119): read (never write) the per-user search
cache; `if not cache:` is taken for a missing key and for an empty cached
list; an out-of-range number is rejected; otherwise the station at
`number - 1` is shown with its stream URL. Returns the reply and the cache
after the call. -/
def radioPick (cache : List (Nat × List Station)) (userId : Nat)
    (number : Int) : PickReply × List (Nat × List Station) :=
  match alookup userId cache with
  | none => (.noRecentSearch, cache)
  | some l =>
    if l = [] then (.noRecentSearch, cache)
    else if 1 ≤ number ∧ number ≤ l.length then
      let st := l.getD (number - 1).toNat ⟨none, none, none, none, none⟩
      (.picked st (streamUrl st), cache)
    else (.outOfRange l.length, cache)

/-- `self._search_cache[ctx.author.id] = data` (line 82): the only write to
the search cache, performed by a successful `radio search`. -/
def searchStore (cache : List (Nat × List Station)) (userId : Nat)
    (data : List Station) : List (Nat × List Station) :=
  dictSet cache userId data

/-! Helper lemmas about `fmod`, `alookup`, `dictSet`, `List.mapM` and list
indexing, shared by the claim theorems. -/

theorem fmod_nonneg (x y : ℚ) (hy : 0 < y) : 0 ≤ fmod x y := by
  unfold fmod
  have h : y * (⌊x / y⌋ : ℚ) ≤ y * (x / y) :=
    mul_le_mul_of_nonneg_left (Int.floor_le (x / y)) hy.le
  have h2 : y * (x / y) = x := by
    field_simp
  linarith

theorem fmod_lt (x y : ℚ) (hy : 0 < y) : fmod x y < y := by
  unfold fmod
  have h : y * (x / y) < y * ((⌊x / y⌋ : ℚ) + 1) :=
    mul_lt_mul_of_pos_left (Int.lt_floor_add_one (x / y)) hy
  have h2 : y * (x / y) = x := by
    field_simp
  nlinarith

theorem alookup_dictSet_self {α β : Type} [DecidableEq α]
    (k : α) (v : β) :
    ∀ m : List (α × β), alookup k (dictSet m k v) = some v := by
  intro m
  induction m with
  | nil => simp [dictSet, alookup]
  | cons p t ih =>
    obtain ⟨a, b⟩ := p
    by_cases hp : a = k
    · simp [dictSet, hp, alookup]
    · simp [dictSet, hp, alookup, ih]

theorem alookup_dictSet_ne {α β : Type} [DecidableEq α]
    (k k' : α) (v : β) (hne : k' ≠ k) :
    ∀ m : List (α × β), alookup k' (dictSet m k v) = alookup k' m := by
  intro m
  induction m with
  | nil => simp [dictSet, alookup, Ne.symm hne]
  | cons p t ih =>
    obtain ⟨a, b⟩ := p
    by_cases hp : a = k
    · subst hp
      simp [dictSet, alookup, Ne.symm hne]
    · by_cases hp' : a = k'
      · subst hp'
        simp [dictSet, alookup, hne, hp]
      · simp [dictSet, alookup, hp, hp', ih]

theorem list_mapM_ok {ε α β : Type} (g : α → Except ε β) (g' : α → β) :
    ∀ l : List α, (∀ a ∈ l, g a = .ok (g' a)) →
      l.mapM g = .ok (l.map g') := by
  intro l
  induction l with
  | nil => intro _; rfl
  | cons a t ih =>
    intro h
    rw [List.mapM_cons, h a (List.mem_cons_self a t),
      ih (fun x hx => h x (List.mem_cons_of_mem a hx))]
    rfl

theorem getColors_length (n : Nat) : (getColors n).length = n := by
  unfold getColors
  rw [List.length_map, List.length_range]

theorem renderSlice_ok (imgMap : List (String × String))
    (fetch : String → Option PILImage) (sector offset : ℚ) (idx : Nat)
    (opt : String) (col : Color) (h : fetchOk imgMap fetch opt = true) :
    renderSlice imgMap fetch sector offset idx opt col =
      .ok (sliceSpec imgMap fetch sector offset idx opt col) := by
  cases hurl : alookup opt imgMap with
  | none => simp [renderSlice, sliceSpec, hurl]
  | some url =>
    by_cases hempty : url = ""
    · simp [renderSlice, sliceSpec, hurl, hempty]
    · cases hfetch : fetch url with
      | none =>
        exfalso
        unfold fetchOk at h
        rw [hurl] at h
        simp only [hfetch, Option.isSome_none, Bool.or_false, beq_iff_eq] at h
        exact hempty (by simpa using h)
      | some src => simp [renderSlice, sliceSpec, hurl, hempty, hfetch]

theorem renderFrame_ok (options : List String) (imgMap : List (String × String))
    (fetch : String → Option PILImage) (n : Nat) (w : Int) (frames f : Nat)
    (hf : 2 ≤ frames)
    (hfetch : ∀ opt ∈ options, fetchOk imgMap fetch opt = true) :
    renderFrame options imgMap fetch n w frames f =
      .ok (frameSpec options imgMap fetch n w frames f) := by
  unfold renderFrame frameSpec
  have h1 : frames ≠ 1 := by omega
  rw [if_neg h1]
  have hmap :
      (options.zip (getColors n)).enum.mapM
          (fun p => renderSlice imgMap fetch (sectorAngle n)
            (frameOffset n w frames f) p.1 p.2.1 p.2.2) =
        .ok ((options.zip (getColors n)).enum.map
          (fun p => sliceSpec imgMap fetch (sectorAngle n)
            (frameOffset n w frames f) p.1 p.2.1 p.2.2)) := by
    apply list_mapM_ok
    intro p hp
    apply renderSlice_ok
    apply hfetch
    rw [List.enum_eq_zip_range] at hp
    obtain ⟨i, q⟩ := p
    have hq : q ∈ options.zip (getColors n) := (List.of_mem_zip hp).2
    obtain ⟨a, b⟩ := q
    exact (List.of_mem_zip hq).1
  rw [hmap]

theorem makeWheelGif_ok (options : List String) (frames : Nat) (duration : ℚ)
    (w : Int) (imgMap : List (String × String))
    (fetch : String → Option PILImage)
    (hn : 1 ≤ options.length) (hf : 2 ≤ frames)
    (hfetch : ∀ opt ∈ options, fetchOk imgMap fetch opt = true) :
    makeWheelGif options frames duration w imgMap fetch =
      .ok ⟨(List.range frames).map
            (frameSpec options imgMap fetch options.length w frames),
          duration / frames⟩ := by
  unfold makeWheelGif
  have h0 : options.length ≠ 0 := by omega
  rw [if_neg h0]
  have hmap :
      (List.range frames).mapM
          (renderFrame options imgMap fetch options.length w frames) =
        .ok ((List.range frames).map
          (frameSpec options imgMap fetch options.length w frames)) := by
    apply list_mapM_ok
    intro f _
    exact renderFrame_ok options imgMap fetch options.length w frames f hf hfetch
  rw [hmap]
  have hfr : frames ≠ 0 := by omega
  simp [hfr]

theorem getq_zip {α β : Type} :
    ∀ (l : List α) (r : List β) (i : Nat),
      (l.zip r)[i]? = (l[i]?).bind (fun a => (r[i]?).map (fun b => (a, b))) := by
  intro l
  induction l with
  | nil => intro r i; simp
  | cons a t ih =>
    intro r i
    cases r with
    | nil => simp
    | cons b s =>
      cases i with
      | zero => simp
      | succ j => simpa using ih s j

theorem frameSpec_slices_getq (options : List String)
    (imgMap : List (String × String)) (fetch : String → Option PILImage)
    (w : Int) (frames f i : Nat) (hi : i < options.length) :
    (frameSpec options imgMap fetch options.length w frames f).slices[i]? =
      some (sliceSpec imgMap fetch (sectorAngle options.length)
        (frameOffset options.length w frames f) i (options.getD i "")
        ((getColors options.length).getD i (0, 0, 0))) := by
  have hic : i < (getColors options.length).length := by
    rw [getColors_length]; exact hi
  have hlen : (options.zip (getColors options.length)).length = options.length := by
    rw [List.length_zip, getColors_length]
    omega
  unfold frameSpec
  rw [List.getElem?_map, List.enum_eq_zip_range, getq_zip,
    List.getElem?_range (by rw [hlen]; exact hi), getq_zip,
    List.getElem?_eq_getElem hi, List.getElem?_eq_getElem hic]
  simp [List.getD_eq_getElem?_getD, List.getElem?_eq_getElem hi,
    List.getElem?_eq_getElem hic]

/-! The claim theorems. -/

/-- C1: for `n ≥ 2` labels, `0 ≤ winnerIndex < n` and `frameCount ≥ 2`, the
per-frame rotation has offset `0` at frame `0`; the final frame's offset is
`turns*360 + ((270 - (winnerIndex + 0.5)*(360/n)) mod 360)` with
`turns = 3 ≥ 1`; and the winner slice's angular midpoint plus that offset is
congruent to `270` modulo `360` (exactly, hence within the 1° tolerance). -/
theorem winner_slice_lands_at_pointer (n : Nat) (w : Int) (frames : Nat)
    (hn : 2 ≤ n) (hw0 : 0 ≤ w) (hw : w < (n : Int)) (hf : 2 ≤ frames) :
    frameOffset n w frames 0 = 0 ∧
    frameOffset n w frames (frames - 1) =
      3 * 360 + fmod (270 - midDeg n w) 360 ∧
    1 ≤ (3 : ℕ) ∧
    ∃ k : ℤ, midDeg n w + frameOffset n w frames (frames - 1) - 270 = k * 360 := by
  have hne : ((frames : ℚ) - 1) ≠ 0 := by
    have : (2 : ℚ) ≤ (frames : ℚ) := by exact_mod_cast hf
    linarith
  have hlast : ((frames - 1 : ℕ) : ℚ) / ((frames : ℚ) - 1) = 1 := by
    rw [Nat.cast_sub (by omega : 1 ≤ frames)]
    simp [div_self hne]
  refine ⟨by simp [frameOffset], ?_, by norm_num, ?_⟩
  · unfold frameOffset
    rw [hlast, one_mul]
    rfl
  · refine ⟨3 - ⌊(270 - midDeg n w) / 360⌋, ?_⟩
    unfold frameOffset
    rw [hlast, one_mul]
    unfold finalOffset rotDelta fmod
    push_cast
    ring

/-- C4: with at least 2 labels and `frameCount ≥ 2`, the rotation offset is
monotonically non-decreasing in the frame index: the wheel never reverses
direction. -/
theorem rotation_offset_monotone (n : Nat) (w : Int) (frames f1 f2 : Nat)
    (hn : 2 ≤ n) (hf : 2 ≤ frames) (h12 : f1 ≤ f2) :
    frameOffset n w frames f1 ≤ frameOffset n w frames f2 := by
  unfold frameOffset
  have hpos : (0 : ℚ) < (frames : ℚ) - 1 := by
    have : (2 : ℚ) ≤ (frames : ℚ) := by exact_mod_cast hf
    linarith
  have hfo : 0 ≤ finalOffset n w := by
    unfold finalOffset rotDelta
    have := fmod_nonneg (270 - midDeg n w) 360 (by norm_num)
    linarith
  have hq : (f1 : ℚ) ≤ (f2 : ℚ) := by exact_mod_cast h12
  have ht : (f1 : ℚ) / ((frames : ℚ) - 1) ≤ (f2 : ℚ) / ((frames : ℚ) - 1) := by
    apply div_le_div_of_nonneg_right hq hpos.le
  exact mul_le_mul_of_nonneg_right ht hfo

/-- Witness for `winner_slice_lands_at_pointer` at
`n = 3`, `winnerIndex = 1`, `frameCount = 10`. -/
theorem winner_slice_lands_at_pointer_witness :
    frameOffset 3 1 10 0 = 0 ∧
    frameOffset 3 1 10 9 = 3 * 360 + fmod (270 - midDeg 3 1) 360 ∧
    1 ≤ (3 : ℕ) ∧
    ∃ k : ℤ, midDeg 3 1 + frameOffset 3 1 10 9 - 270 = k * 360 :=
  winner_slice_lands_at_pointer 3 1 10 (by norm_num) (by norm_num)
    (by norm_num) (by norm_num)

/-- Witness for `rotation_offset_monotone` at `n = 2`, `winnerIndex = 0`,
`frameCount = 5`, frames `1 ≤ 3`. -/
theorem rotation_offset_monotone_witness :
    frameOffset 2 0 5 1 ≤ frameOffset 2 0 5 3 :=
  rotation_offset_monotone 2 0 5 1 3 (by norm_num) (by norm_num) (by norm_num)

/-- C5: for every label list of length ≥ 2 and every `frameCount ≥ 2` (with
every slice's background fetch able to succeed), the renderer completes and
produces exactly `frameCount` frames, each a 500×500 canvas. -/
theorem render_frame_count_and_size
    (options : List String) (frames : Nat) (duration : ℚ) (w : Int)
    (imgMap : List (String × String)) (fetch : String → Option PILImage)
    (hn : 2 ≤ options.length) (hf : 2 ≤ frames)
    (hfetch : ∀ opt ∈ options, fetchOk imgMap fetch opt = true) :
    ∃ gif, makeWheelGif options frames duration w imgMap fetch = .ok gif ∧
      gif.frames.length = frames ∧
      ∀ fr ∈ gif.frames, fr.width = 500 ∧ fr.height = 500 := by
  refine ⟨_, makeWheelGif_ok options frames duration w imgMap fetch
    (by omega) hf hfetch, ?_, ?_⟩
  · simp
  · intro fr hfr
    simp only [List.mem_map] at hfr
    obtain ⟨f, _, rfl⟩ := hfr
    exact ⟨rfl, rfl⟩

/-- Witness for `render_frame_count_and_size`: the spec's concrete scenario
`labels = ["Pizza","Tacos","Sushi"]`, `winnerIndex = 1`, `frameCount = 10`,
`durationSeconds = 2`, no image map. -/
theorem render_frame_count_and_size_witness :
    ∃ gif, makeWheelGif ["Pizza", "Tacos", "Sushi"] 10 2 1 []
        (fun _ => none) = .ok gif ∧
      gif.frames.length = 10 ∧
      ∀ fr ∈ gif.frames, fr.width = 500 ∧ fr.height = 500 :=
  render_frame_count_and_size ["Pizza", "Tacos", "Sushi"] 10 2 1 []
    (fun _ => none) (by decide) (by decide) (fun opt _ => rfl)

/-- C6: a label with no entry in the image map always gets the solid-color
fallback fill, in every frame; and an empty image map is a valid input under
which the render succeeds with every slice solid. -/
theorem missing_map_entry_uses_solid_fallback
    (options : List String) (frames : Nat) (duration : ℚ) (w : Int)
    (imgMap : List (String × String)) (fetch : String → Option PILImage)
    (hn : 2 ≤ options.length) (hf : 2 ≤ frames)
    (hfetch : ∀ opt ∈ options, fetchOk imgMap fetch opt = true) :
    (∃ gif, makeWheelGif options frames duration w imgMap fetch = .ok gif ∧
      ∀ fr ∈ gif.frames, ∀ i, i < options.length →
        alookup (options.getD i "") imgMap = none →
        ∃ s, fr.slices[i]? = some s ∧
          s.fill = Fill.solid ((getColors options.length).getD i (0, 0, 0))) ∧
    (∃ gif, makeWheelGif options frames duration w [] fetch = .ok gif ∧
      ∀ fr ∈ gif.frames, ∀ i, i < options.length →
        ∃ s, fr.slices[i]? = some s ∧
          s.fill = Fill.solid ((getColors options.length).getD i (0, 0, 0))) := by
  constructor
  · refine ⟨_, makeWheelGif_ok options frames duration w imgMap fetch
      (by omega) hf hfetch, ?_⟩
    intro fr hfr i hi hmiss
    simp only [List.mem_map] at hfr
    obtain ⟨f, _, rfl⟩ := hfr
    refine ⟨_, frameSpec_slices_getq options imgMap fetch w frames f i hi, ?_⟩
    have hmiss' : alookup (options[i]?.getD "") imgMap = none := by
      simpa [List.getD_eq_getElem?_getD] using hmiss
    simp [sliceSpec, hmiss']
  · refine ⟨_, makeWheelGif_ok options frames duration w [] fetch
      (by omega) hf (fun opt _ => rfl), ?_⟩
    intro fr hfr i hi
    simp only [List.mem_map] at hfr
    obtain ⟨f, _, rfl⟩ := hfr
    refine ⟨_, frameSpec_slices_getq options [] fetch w frames f i hi, ?_⟩
    simp [sliceSpec, alookup]

/-- Witness for `missing_map_entry_uses_solid_fallback`: labels
`["A", "B"]`, the map holding an image URL only for `"B"`, the fetch
succeeding for it. -/
theorem missing_map_entry_uses_solid_fallback_witness :
    (∃ gif, makeWheelGif ["A", "B"] 2 1 0 [("B", "u")]
        (fun _ => some ⟨[7]⟩) = .ok gif ∧
      ∀ fr ∈ gif.frames, ∀ i, i < (["A", "B"] : List String).length →
        alookup ((["A", "B"] : List String).getD i "") [("B", "u")] = none →
        ∃ s, fr.slices[i]? = some s ∧
          s.fill = Fill.solid ((getColors 2).getD i (0, 0, 0))) ∧
    (∃ gif, makeWheelGif ["A", "B"] 2 1 0 [] (fun _ => some ⟨[7]⟩) = .ok gif ∧
      ∀ fr ∈ gif.frames, ∀ i, i < (["A", "B"] : List String).length →
        ∃ s, fr.slices[i]? = some s ∧
          s.fill = Fill.solid ((getColors 2).getD i (0, 0, 0))) :=
  missing_map_entry_uses_solid_fallback ["A", "B"] 2 1 0 [("B", "u")]
    (fun _ => some ⟨[7]⟩) (by decide) (by decide) (by decide)

/-- C7: in every rendered frame, a label longer than the 12-character budget
is rendered as its first 12 characters followed by the ellipsis mark, and a
label of at most 12 characters is rendered verbatim. -/
theorem labels_truncated_at_budget
    (options : List String) (frames : Nat) (duration : ℚ) (w : Int)
    (imgMap : List (String × String)) (fetch : String → Option PILImage)
    (hn : 2 ≤ options.length) (hf : 2 ≤ frames)
    (hfetch : ∀ opt ∈ options, fetchOk imgMap fetch opt = true) :
    ∃ gif, makeWheelGif options frames duration w imgMap fetch = .ok gif ∧
      ∀ fr ∈ gif.frames, ∀ i, i < options.length →
        ∃ s, fr.slices[i]? = some s ∧
          s.label = (if (options.getD i "").length ≤ 12
                     then options.getD i ""
                     else (options.getD i "").take 12 ++ "…") := by
  refine ⟨_, makeWheelGif_ok options frames duration w imgMap fetch
    (by omega) hf hfetch, ?_⟩
  intro fr hfr i hi
  simp only [List.mem_map] at hfr
  obtain ⟨f, _, rfl⟩ := hfr
  refine ⟨_, frameSpec_slices_getq options imgMap fetch w frames f i hi, ?_⟩
  simp [sliceSpec, truncateLabel]

/-- Witness for `labels_truncated_at_budget`: one label over the budget
(13 characters) and one under it. -/
theorem labels_truncated_at_budget_witness :
    ∃ gif, makeWheelGif ["ABCDEFGHIJKLM", "ok"] 2 1 0 [] (fun _ => none)
        = .ok gif ∧
      ∀ fr ∈ gif.frames, ∀ i,
        i < (["ABCDEFGHIJKLM", "ok"] : List String).length →
        ∃ s, fr.slices[i]? = some s ∧
          s.label =
            (if ((["ABCDEFGHIJKLM", "ok"] : List String).getD i "").length ≤ 12
             then (["ABCDEFGHIJKLM", "ok"] : List String).getD i ""
             else ((["ABCDEFGHIJKLM", "ok"] : List String).getD i "").take 12
               ++ "…") :=
  labels_truncated_at_budget ["ABCDEFGHIJKLM", "ok"] 2 1 0 [] (fun _ => none)
    (by decide) (by decide) (fun opt _ => rfl)

/-- `true` iff the render returned an animation rather than raising. -/
def renderCompleted (r : Except RenderError Gif) : Bool :=
  match r with
  | .ok _ => true
  | .error _ => false

/-- The number of frames in the returned animation (`0` when the render
raised and produced nothing). -/
def gifFrameCount (r : Except RenderError Gif) : Nat :=
  match r with
  | .ok g => g.frames.length
  | .error _ => 0

/-- C2: evaluation at the failing input. With labels `["A", "B"]`, an image
URL registered for `"A"`, and the fetch of that URL failing, the code
propagates the fetch failure out of `_make_wheel_gif`: the whole render
aborts with no animation, instead of falling back to the solid color for
that slice as the spec requires. -/
theorem fetch_failure_aborts_whole_render :
    makeWheelGif ["A", "B"] 10 2 0 [("A", "u")] (fun _ => none) =
      .error (.fetchFailure "u") := by
  rfl

/-- C3 counterexample: invoked outside the spec's preconditions — winner
index `9 ∉ [0, 2)` together with non-positive duration `-1` — the renderer
does not fail with any `InvalidInput` condition: it completes and produces
all 5 frames. -/
theorem invalid_input_not_rejected :
    renderCompleted (makeWheelGif ["A", "B"] 5 (-1) 9 [] (fun _ => none))
        = true ∧
    gifFrameCount (makeWheelGif ["A", "B"] 5 (-1) 9 [] (fun _ => none)) = 5 := by
  rw [makeWheelGif_ok ["A", "B"] 5 (-1) 9 [] (fun _ => none)
    (by decide) (by decide) (fun opt _ => rfl)]
  constructor
  · rfl
  · simp [gifFrameCount]

/-- C3 (amended): `_make_wheel_gif` performs no input validation. With at
least one label and `frameCount ≥ 2` (and fetchable slice images) it
completes and produces a full `frameCount`-frame animation for every winner
index — in range or not, even negative — and every duration, positive or
not; no `InvalidInput` condition exists in the renderer. -/
theorem renderer_performs_no_validation
    (options : List String) (frames : Nat) (duration : ℚ) (w : Int)
    (imgMap : List (String × String)) (fetch : String → Option PILImage)
    (hn : 1 ≤ options.length) (hf : 2 ≤ frames)
    (hfetch : ∀ opt ∈ options, fetchOk imgMap fetch opt = true) :
    ∃ gif, makeWheelGif options frames duration w imgMap fetch = .ok gif ∧
      gif.frames.length = frames := by
  refine ⟨_, makeWheelGif_ok options frames duration w imgMap fetch
    hn hf hfetch, ?_⟩
  simp

/-- Witness for `renderer_performs_no_validation`: winner index `-3` (out of
range) and duration `0` (non-positive) are accepted. -/
theorem renderer_performs_no_validation_witness :
    ∃ gif, makeWheelGif ["A", "B"] 4 0 (-3) [] (fun _ => none) = .ok gif ∧
      gif.frames.length = 4 :=
  renderer_performs_no_validation ["A", "B"] 4 0 (-3) [] (fun _ => none)
    (by decide) (by decide) (fun opt _ => rfl)

/-- C8: the URL-keyed cache deduplicates fetches. For a URL not yet cached
whose request succeeds, the first `_fetch_image` call issues exactly one
request and stores the decoded image under the URL; the immediately
following call with the same URL — and more generally any call whose cache
holds the URL — returns the cached image with zero network requests and an
unchanged cache. -/
theorem fetch_cache_deduplicates (cache : List (String × PILImage))
    (net : String → Option (List Nat)) (url : String) (data : List Nat)
    (hmiss : alookup url cache = none) (hnet : net url = some data) :
    fetchImage cache net url = (.ok ⟨data⟩, dictSet cache url ⟨data⟩, 1) ∧
    alookup url (dictSet cache url ⟨data⟩) = some ⟨data⟩ ∧
    fetchImage (dictSet cache url ⟨data⟩) net url =
      (.ok ⟨data⟩, dictSet cache url ⟨data⟩, 0) ∧
    (∀ (c : List (String × PILImage)) (img : PILImage),
      alookup url c = some img → fetchImage c net url = (.ok img, c, 0)) := by
  have hhit : ∀ (c : List (String × PILImage)) (img : PILImage),
      alookup url c = some img → fetchImage c net url = (.ok img, c, 0) := by
    intro c img h
    unfold fetchImage
    rw [h]
  refine ⟨?_, alookup_dictSet_self url ⟨data⟩ cache, ?_, hhit⟩
  · unfold fetchImage
    rw [hmiss, hnet]
  · exact hhit _ _ (alookup_dictSet_self url ⟨data⟩ cache)

/-- Witness for `fetch_cache_deduplicates`: empty starting cache, a network
that answers URL `"u"` with one byte. -/
theorem fetch_cache_deduplicates_witness :
    fetchImage [] (fun _ => some [7]) "u" =
      (.ok ⟨[7]⟩, dictSet [] "u" ⟨[7]⟩, 1) ∧
    alookup "u" (dictSet [] "u" (⟨[7]⟩ : PILImage)) = some ⟨[7]⟩ ∧
    fetchImage (dictSet [] "u" ⟨[7]⟩) (fun _ => some [7]) "u" =
      (.ok ⟨[7]⟩, dictSet [] "u" ⟨[7]⟩, 0) ∧
    (∀ (c : List (String × PILImage)) (img : PILImage),
      alookup "u" c = some img →
        fetchImage c (fun _ => some [7]) "u" = (.ok img, c, 0)) :=
  fetch_cache_deduplicates [] (fun _ => some [7]) "u" [7] rfl rfl

/-- C9: `remove` is atomic on error. When the named wheel exists, an index
`< 1` or `> len(opts)` leaves the stored wheels mapping literally unchanged
and reports the invalid-index error; an in-range index removes exactly the
element at position `index - 1` (the update equals `take ++ drop`, so the
remaining options keep their relative order) and every other wheel's entry
is untouched. -/
theorem remove_atomic_on_error (wheels : List (String × List String))
    (name : String) (index : Int) (opts : List String)
    (hw : alookup (pyLower name) wheels = some opts) :
    ((index < 1 ∨ index > opts.length) →
      removeCmd wheels name index = (.invalidIndex, wheels)) ∧
    (1 ≤ index → index ≤ opts.length →
      (removeCmd wheels name index).1 =
        .removed (opts.getD (index - 1).toNat "") ∧
      alookup (pyLower name) (removeCmd wheels name index).2 =
        some (opts.eraseIdx (index - 1).toNat) ∧
      opts.eraseIdx (index - 1).toNat =
        opts.take (index - 1).toNat ++ opts.drop ((index - 1).toNat + 1) ∧
      (∀ k, k ≠ pyLower name →
        alookup k (removeCmd wheels name index).2 = alookup k wheels)) := by
  constructor
  · intro hbad
    unfold removeCmd
    rw [hw]
    simp [hbad]
  · intro h1 h2
    have hgood : ¬(index < 1 ∨ index > (opts.length : Int)) := by omega
    have hcmd : removeCmd wheels name index =
        (.removed (opts.getD (index - 1).toNat ""),
          dictSet wheels (pyLower name) (opts.eraseIdx (index - 1).toNat)) := by
      unfold removeCmd
      rw [hw]
      simp [hgood]
    rw [hcmd]
    refine ⟨rfl, alookup_dictSet_self _ _ _,
      List.eraseIdx_eq_take_drop_succ opts (index - 1).toNat, ?_⟩
    intro k hk
    exact alookup_dictSet_ne (pyLower name) k _ hk wheels

/-- Witness for `remove_atomic_on_error`: two wheels, the invalid index `3`
on the two-element wheel `"food"`, and the valid index `1`. -/
theorem remove_atomic_on_error_witness :
    ((3 : Int) < 1 ∨ (3 : Int) > (["a", "b"] : List String).length) ∧
    removeCmd [("food", ["a", "b"]), ("games", ["x"])] "Food" 3 =
      (.invalidIndex, [("food", ["a", "b"]), ("games", ["x"])]) ∧
    (removeCmd [("food", ["a", "b"]), ("games", ["x"])] "Food" 1).1 =
      .removed "a" ∧
    alookup "food"
        (removeCmd [("food", ["a", "b"]), ("games", ["x"])] "Food" 1).2 =
      some ["b"] ∧
    alookup "games"
        (removeCmd [("food", ["a", "b"]), ("games", ["x"])] "Food" 1).2 =
      some ["x"] := by
  have h := remove_atomic_on_error
    [("food", ["a", "b"]), ("games", ["x"])] "Food" 3 ["a", "b"] (by decide)
  have h' := remove_atomic_on_error
    [("food", ["a", "b"]), ("games", ["x"])] "Food" 1 ["a", "b"] (by decide)
  have hbad : (3 : Int) < 1 ∨ (3 : Int) > ((["a", "b"] : List String).length : Int) := by
    right; decide
  obtain ⟨hr1, hr2, hr3, hr4⟩ := h'.2 (by decide) (by decide)
  exact ⟨hbad, h.1 hbad, hr1, hr2, hr4 "games" (by decide)⟩

/-- C10: `radio pick` never mutates the search cache — it returns the cache
exactly as it was for every user and number — and a successful search by
one user stores only under that user's id, leaving every other user's
cached results unchanged. -/
theorem pick_never_mutates_cache (cache : List (Nat × List Station))
    (userId otherId : Nat) (number : Int) (data : List Station)
    (hne : otherId ≠ userId) :
    (radioPick cache userId number).2 = cache ∧
    alookup otherId (searchStore cache userId data) = alookup otherId cache := by
  constructor
  · unfold radioPick
    cases alookup userId cache with
    | none => rfl
    | some l =>
      by_cases h1 : l = []
      · simp [h1]
      · by_cases h2 : 1 ≤ number ∧ number ≤ (l.length : Int)
        · simp [h1, h2]
        · simp [h1, h2]
  · exact alookup_dictSet_ne userId otherId data hne cache

/-- Witness for `pick_never_mutates_cache`: one cached search for user `1`,
user `2` picking from it, user `1` searching again. -/
theorem pick_never_mutates_cache_witness :
    (radioPick [(1, [⟨some "s", some "r", some "u", none, none⟩])] 2 1).2 =
      [(1, [⟨some "s", some "r", some "u", none, none⟩])] ∧
    alookup 2 (searchStore [(1, [⟨some "s", some "r", some "u", none, none⟩])]
        1 []) =
      alookup 2 [(1, [(⟨some "s", some "r", some "u", none, none⟩ : Station)])] :=
  pick_never_mutates_cache [(1, [⟨some "s", some "r", some "u", none, none⟩])]
    1 2 1 [] (by decide)

end ElvinCogs
